import Mathlib

/-!
Verification development for the client-side query synchronization engine and
schema definition module of this repository.

The spec's core engine (query key canonicalization, the queries observer with
its subscription registry, the optimistic local store, and the mutation
builder) is exercised by the test files in the excerpt but its implementation
is not included; those components are modelled here directly from the spec
text.  The schema definition module (`src/schema/index.ts`) is included in the
excerpt and is translated from its source.
-/

mutual

/-- Modelled from the spec: JSON-like argument/result values ("duck-typed
JSON-like values", spec section 9); the engine's implementation is not in the
excerpt.  `fn` represents a JavaScript function value; it can never occur
inside query arguments (which are Convex values) but is needed to describe the
shape of a UI SyntheticEvent object passed to a mutation by mistake (spec
section 7).  Objects are finite lists of (key, value) fields; `Fields` is a
separate mutual inductive so that all functions below are structural
recursions. -/
inductive Value where
  | str (s : String)
  | num (n : Int)
  | bool (b : Bool)
  | null
  | fn
  | obj (fields : Fields)

/-- Modelled from the spec: the field list of a JSON-like object value. -/
inductive Fields where
  | nil
  | cons (key : String) (val : Value) (rest : Fields)

end

/-- Fields of an object as an association list. -/
def Fields.toList : Fields → List (String × Value)
  | .nil => []
  | .cons k v rest => (k, v) :: rest.toList

/-- Build a `Fields` from an association list. -/
def Fields.ofList : List (String × Value) → Fields
  | [] => .nil
  | (k, v) :: rest => .cons k v (Fields.ofList rest)

theorem Fields.toList_ofList : ∀ l : List (String × Value),
    (Fields.ofList l).toList = l
  | [] => rfl
  | (k, v) :: rest => by
    simp [Fields.ofList, Fields.toList, Fields.toList_ofList rest]

theorem Fields.ofList_toList : ∀ fs : Fields, Fields.ofList fs.toList = fs
  | .nil => rfl
  | .cons k v rest => by
    simp [Fields.toList, Fields.ofList, Fields.ofList_toList rest]

theorem Fields.toList_injective {fs gs : Fields} (h : fs.toList = gs.toList) :
    fs = gs := by
  have h2 := congrArg Fields.ofList h
  rwa [Fields.ofList_toList, Fields.ofList_toList] at h2

/-- First value bound to `key`, if any (JavaScript property lookup). -/
def lookupFields : Fields → String → Option Value
  | .nil, _ => none
  | .cons k v rest, key => if k = key then some v else lookupFields rest key

/-- Association-list lookup, the `List` counterpart of `lookupFields`. -/
def lookupField : List (String × Value) → String → Option Value
  | [], _ => none
  | (k, v) :: rest, key => if k = key then some v else lookupField rest key

theorem lookupFields_toList : ∀ (fs : Fields) (key : String),
    lookupField fs.toList key = lookupFields fs key
  | .nil, _ => rfl
  | .cons k v rest, key => by
    by_cases h : k = key <;>
      simp [Fields.toList, lookupFields, lookupField, h,
        lookupFields_toList rest key]

/-- Does the object have a property named `key`? -/
def hasKeyF : Fields → String → Bool
  | .nil, _ => false
  | .cons k _ rest, key => k = key || hasKeyF rest key

theorem hasKeyF_iff_lookupFields : ∀ (fs : Fields) (key : String),
    hasKeyF fs key = true ↔ (lookupFields fs key).isSome
  | .nil, key => by simp [hasKeyF, lookupFields]
  | .cons k v rest, key => by
    by_cases h : k = key <;>
      simp [hasKeyF, lookupFields, h, hasKeyF_iff_lookupFields rest key]

/-- Every key of the first object occurs in the second. -/
def keysSubset : Fields → Fields → Bool
  | .nil, _ => true
  | .cons k _ rest, gs => hasKeyF gs k && keysSubset rest gs

mutual

/-- Modelled from the spec: dynamic structural equality of JSON-like values
(spec sections 3 and 9: "structurally equal arguments (any key order, any
nested ordering)", independent of reference identity); the canonicalizer's
implementation is not in the excerpt.  Two objects are structurally equal when
they have the same key set and structurally equal values at every key; all
other values compare by ordinary equality. -/
def structEq : Value → Value → Bool
  | .str s, .str t => s = t
  | .num m, .num n => m = n
  | .bool a, .bool b => a = b
  | .null, .null => true
  | .fn, .fn => true
  | .obj fs, .obj gs => structSub fs gs && keysSubset gs fs
  | _, _ => false

/-- Every field of the first object has a structurally equal counterpart in
the second object. -/
def structSub : Fields → Fields → Bool
  | .nil, _ => true
  | .cons k v rest, gs =>
    (match lookupFields gs k with
     | some w => structEq v w
     | none => false) && structSub rest gs

end

mutual

/-- Modelled from the spec: no object in the value has duplicate keys
(JavaScript objects cannot have any; canonicalization relies on it). -/
def nodupKeysV : Value → Bool
  | .obj fs => nodupKeysF fs
  | _ => true

/-- Modelled from the spec: duplicate-key freedom for a field list. -/
def nodupKeysF : Fields → Bool
  | .nil => true
  | .cons k v rest => !hasKeyF rest k && nodupKeysV v && nodupKeysF rest

end

/-- Ordering of object fields by key, used to normalize key order. -/
def fieldLe (p q : String × Value) : Prop := p.1 ≤ q.1

instance : DecidableRel fieldLe := fun p q =>
  (inferInstance : Decidable (p.1 ≤ q.1))

instance : IsTotal (String × Value) fieldLe :=
  ⟨fun p q => le_total p.1 q.1⟩

instance : IsTrans (String × Value) fieldLe :=
  ⟨fun _ _ _ h h' => le_trans h h'⟩

/-- Strict key ordering; antisymmetric, used to show sorted forms are unique. -/
def fieldLt (p q : String × Value) : Prop := p.1 < q.1

instance : IsAntisymm (String × Value) fieldLt :=
  ⟨fun _ _ h h' => absurd (lt_trans h h') (lt_irrefl _)⟩

/-- Sort the fields of an object by key (stable insertion sort). -/
def sortFields (fs : Fields) : Fields :=
  Fields.ofList (List.insertionSort fieldLe fs.toList)

theorem toList_sortFields (fs : Fields) :
    (sortFields fs).toList = List.insertionSort fieldLe fs.toList := by
  simp [sortFields, Fields.toList_ofList]

mutual

/-- Modelled from the spec: the query key canonicalizer's normal form (spec
sections 4.1 and 9); the canonicalizer's implementation is not in the excerpt.
Recursively sort every object's fields by key so that structurally equal
values have identical canonical forms. -/
def canonicalValue : Value → Value
  | .obj fs => .obj (sortFields (canonicalFields fs))
  | .str s => .str s
  | .num n => .num n
  | .bool b => .bool b
  | .null => .null
  | .fn => .fn

/-- Modelled from the spec: canonicalize every value in a field list. -/
def canonicalFields : Fields → Fields
  | .nil => .nil
  | .cons k v rest => .cons k (canonicalValue v) (canonicalFields rest)

end

theorem toList_canonicalFields : ∀ fs : Fields,
    (canonicalFields fs).toList =
      fs.toList.map (fun p => (p.1, canonicalValue p.2))
  | .nil => rfl
  | .cons k v rest => by
    simp [canonicalFields, Fields.toList, toList_canonicalFields rest]

/-- JSON string escaping for quote and backslash characters. -/
def escapeChar (c : Char) : String :=
  if c = '\\' then "\\\\" else if c = '"' then "\\\"" else String.singleton c

/-- Minimal JSON string escaping. -/
def escapeString (s : String) : String :=
  String.join (s.toList.map escapeChar)

mutual

/-- Modelled from the spec: deterministic serialization of an (already
canonicalized) JSON-like value, used to build the opaque string `QueryKey`
(spec section 3); the serializer's implementation is not in the excerpt.  A
function value never occurs in query arguments; it is rendered as `null`. -/
def stringifyValue : Value → String
  | .str s => "\"" ++ escapeString s ++ "\""
  | .num n => toString n
  | .bool b => if b then "true" else "false"
  | .null => "null"
  | .fn => "null"
  | .obj fs => "\x7b" ++ stringifyFields fs ++ "\x7d"

/-- Modelled from the spec: comma-separated serialization of object fields. -/
def stringifyFields : Fields → String
  | .nil => ""
  | .cons k v .nil => "\"" ++ escapeString k ++ "\":" ++ stringifyValue v
  | .cons k v (.cons k' v' rest) =>
    "\"" ++ escapeString k ++ "\":" ++ stringifyValue v ++ "," ++
      stringifyFields (.cons k' v' rest)

end

/-- Modelled from the spec: `canonicalize(name, args) -> QueryKey` (spec
section 4.1, not in the excerpt): a stable string key from the query name and
the canonical JSON of the arguments with key order normalized. -/
def queryKey (name : String) (args : Fields) : String :=
  name ++ "|" ++ stringifyValue (canonicalValue (.obj args))

theorem hasKeyF_iff_mem : ∀ (fs : Fields) (key : String),
    hasKeyF fs key = true ↔ key ∈ fs.toList.map Prod.fst
  | .nil, key => by simp [hasKeyF, Fields.toList]
  | .cons k v rest, key => by
    simp only [hasKeyF, Fields.toList, List.map_cons, List.mem_cons,
      Bool.or_eq_true, decide_eq_true_eq, hasKeyF_iff_mem rest key]
    constructor
    · rintro (h | hm)
      · exact Or.inl h.symm
      · exact Or.inr hm
    · rintro (h | hm)
      · exact Or.inl h.symm
      · exact Or.inr hm

theorem lookupField_mem : ∀ {G : List (String × Value)} {k : String} {w : Value},
    lookupField G k = some w → (k, w) ∈ G
  | [], _, _, h => by simp [lookupField] at h
  | (k0, v0) :: rest, k, w, h => by
    by_cases hk : k0 = k
    · subst hk
      simp [lookupField] at h
      subst h
      exact List.mem_cons_self _ _
    · simp [lookupField, hk] at h
      exact List.mem_cons_of_mem _ (lookupField_mem h)

theorem mem_lookupField : ∀ {G : List (String × Value)} {k : String} {w : Value},
    (k, w) ∈ G → (G.map Prod.fst).Nodup → lookupField G k = some w
  | [], _, _, hm, _ => by simp at hm
  | (k0, v0) :: rest, k, w, hm, hn => by
    rcases List.mem_cons.mp hm with heq | hmem
    · rw [Prod.mk.injEq] at heq
      obtain ⟨rfl, rfl⟩ := heq
      simp [lookupField]
    · have hk : k0 ≠ k := by
        rintro rfl
        simp only [List.map_cons, List.nodup_cons] at hn
        exact hn.1 (List.mem_map.mpr ⟨(k0, w), hmem, rfl⟩)
      simp only [List.map_cons, List.nodup_cons] at hn
      simp [lookupField, hk, mem_lookupField hmem hn.2]

theorem nodupKeysF_nodup : ∀ fs : Fields, nodupKeysF fs = true →
    (fs.toList.map Prod.fst).Nodup
  | .nil, _ => by simp [Fields.toList]
  | .cons k v rest, h => by
    simp only [nodupKeysF, Bool.and_eq_true, Bool.not_eq_true'] at h
    simp only [Fields.toList, List.map_cons, List.nodup_cons]
    refine ⟨fun hm => ?_, nodupKeysF_nodup rest h.2⟩
    rw [← hasKeyF_iff_mem] at hm
    rw [h.1.1] at hm
    exact Bool.false_ne_true hm

theorem nodupKeysF_val : ∀ fs : Fields, nodupKeysF fs = true →
    ∀ p ∈ fs.toList, nodupKeysV p.2 = true
  | .nil, _, p, hp => by simp [Fields.toList] at hp
  | .cons k v rest, h, p, hp => by
    simp only [nodupKeysF, Bool.and_eq_true] at h
    rcases List.mem_cons.mp hp with heq | hmem
    · subst heq; exact h.1.2
    · exact nodupKeysF_val rest h.2 p hmem

theorem structSub_spec : ∀ {fs gs : Fields}, structSub fs gs = true →
    ∀ p ∈ fs.toList, ∃ w, lookupFields gs p.1 = some w ∧ structEq p.2 w = true
  | .nil, _, _, p, hp => by simp [Fields.toList] at hp
  | .cons k v rest, gs, h, p, hp => by
    simp only [structSub, Bool.and_eq_true] at h
    rcases List.mem_cons.mp hp with heq | hmem
    · subst heq
      rcases hl : lookupFields gs k with _ | w
      · rw [hl] at h; exact absurd h.1 (by simp)
      · rw [hl] at h; exact ⟨w, rfl, h.1⟩
    · exact structSub_spec h.2 p hmem

theorem keysSubset_spec : ∀ {gs fs : Fields}, keysSubset gs fs = true →
    ∀ q ∈ gs.toList, hasKeyF fs q.1 = true
  | .nil, _, _, q, hq => by simp [Fields.toList] at hq
  | .cons k v rest, fs, h, q, hq => by
    simp only [keysSubset, Bool.and_eq_true] at h
    rcases List.mem_cons.mp hq with heq | hmem
    · subst heq; exact h.1
    · exact keysSubset_spec h.2 q hmem

theorem sorted_fieldLt_of_le {l : List (String × Value)}
    (hs : List.Sorted fieldLe l) (hn : (l.map Prod.fst).Nodup) :
    List.Sorted fieldLt l := by
  have hne : l.Pairwise fun p q : String × Value => p.1 ≠ q.1 := by
    rw [List.Nodup, List.pairwise_map] at hn
    exact hn
  have hcomb : l.Pairwise fun p q : String × Value => fieldLe p q ∧ p.1 ≠ q.1 :=
    List.Pairwise.and hs hne
  exact hcomb.imp fun hab => lt_of_le_of_ne hab.1 hab.2

theorem sortFields_map_eq (f : Value → Value) (F G : List (String × Value))
    (hF : (F.map Prod.fst).Nodup) (hG : (G.map Prod.fst).Nodup)
    (h1 : ∀ p ∈ F, ∃ w, lookupField G p.1 = some w ∧ f p.2 = f w)
    (h2 : ∀ q ∈ G, ∃ p ∈ F, p.1 = q.1) :
    List.insertionSort fieldLe (F.map fun p => (p.1, f p.2)) =
      List.insertionSort fieldLe (G.map fun p => (p.1, f p.2)) := by
  have keysF : (F.map fun p => (p.1, f p.2)).map Prod.fst = F.map Prod.fst := by
    rw [List.map_map]; rfl
  have keysG : (G.map fun p => (p.1, f p.2)).map Prod.fst = G.map Prod.fst := by
    rw [List.map_map]; rfl
  have ndF : (F.map fun p => (p.1, f p.2)).Nodup :=
    List.Nodup.of_map Prod.fst (keysF ▸ hF)
  have ndG : (G.map fun p => (p.1, f p.2)).Nodup :=
    List.Nodup.of_map Prod.fst (keysG ▸ hG)
  have ext : ∀ x, x ∈ (F.map fun p => (p.1, f p.2)) ↔
      x ∈ (G.map fun p => (p.1, f p.2)) := by
    intro x
    constructor
    · intro hx
      obtain ⟨p, hp, rfl⟩ := List.mem_map.mp hx
      obtain ⟨w, hw, hfw⟩ := h1 p hp
      exact List.mem_map.mpr ⟨(p.1, w), lookupField_mem hw, by simp [hfw]⟩
    · intro hx
      obtain ⟨q, hq, rfl⟩ := List.mem_map.mp hx
      obtain ⟨p, hp, hpq⟩ := h2 q hq
      obtain ⟨w, hw, hfw⟩ := h1 p hp
      have hlq : lookupField G q.1 = some q.2 :=
        mem_lookupField (by obtain ⟨q1, q2⟩ := q; exact hq) hG
      rw [hpq, hlq] at hw
      obtain rfl : q.2 = w := by injection hw
      exact List.mem_map.mpr ⟨p, hp, by simp [hfw, hpq]⟩
  have hperm : (F.map fun p => (p.1, f p.2)).Perm (G.map fun p => (p.1, f p.2)) :=
    (List.perm_ext_iff_of_nodup ndF ndG).mpr ext
  have ps : (List.insertionSort fieldLe (F.map fun p => (p.1, f p.2))).Perm
      (List.insertionSort fieldLe (G.map fun p => (p.1, f p.2))) :=
    ((List.perm_insertionSort fieldLe _).trans hperm).trans
      (List.perm_insertionSort fieldLe _).symm
  have ndSF : ((List.insertionSort fieldLe
      (F.map fun p => (p.1, f p.2))).map Prod.fst).Nodup :=
    (((List.perm_insertionSort fieldLe _).map Prod.fst).nodup_iff).mpr (keysF ▸ hF)
  have ndSG : ((List.insertionSort fieldLe
      (G.map fun p => (p.1, f p.2))).map Prod.fst).Nodup :=
    (((List.perm_insertionSort fieldLe _).map Prod.fst).nodup_iff).mpr (keysG ▸ hG)
  exact List.eq_of_perm_of_sorted ps
    (sorted_fieldLt_of_le (List.sorted_insertionSort fieldLe _) ndSF)
    (sorted_fieldLt_of_le (List.sorted_insertionSort fieldLe _) ndSG)

mutual

theorem structEq_canonical : ∀ (a b : Value), nodupKeysV a = true →
    nodupKeysV b = true → structEq a b = true →
    canonicalValue a = canonicalValue b
  | .str s, b, _, _, h => by
    cases b <;> simp_all [structEq, canonicalValue]
  | .num m, b, _, _, h => by
    cases b <;> simp_all [structEq, canonicalValue]
  | .bool x, b, _, _, h => by
    cases b <;> simp_all [structEq, canonicalValue]
  | .null, b, _, _, h => by
    cases b <;> simp_all [structEq, canonicalValue]
  | .fn, b, _, _, h => by
    cases b <;> simp_all [structEq, canonicalValue]
  | .obj fs, b, ha, hb, h => by
    cases b with
    | str t => simp [structEq] at h
    | num n => simp [structEq] at h
    | bool y => simp [structEq] at h
    | null => simp [structEq] at h
    | fn => simp [structEq] at h
    | obj gs =>
      simp only [structEq, Bool.and_eq_true] at h
      simp only [nodupKeysV] at ha hb
      simp only [canonicalValue]
      congr 1
      apply Fields.toList_injective
      rw [toList_sortFields, toList_sortFields, toList_canonicalFields,
        toList_canonicalFields]
      apply sortFields_map_eq canonicalValue fs.toList gs.toList
        (nodupKeysF_nodup fs ha) (nodupKeysF_nodup gs hb)
      · intro p hp
        obtain ⟨w, hw, hsw⟩ := structSub_spec h.1 p hp
        have hwmem : (p.1, w) ∈ gs.toList :=
          lookupField_mem (by rw [lookupFields_toList]; exact hw)
        refine ⟨w, by rw [lookupFields_toList]; exact hw, ?_⟩
        exact structEq_canonical_mem fs p hp w (nodupKeysF_val fs ha p hp)
          (nodupKeysF_val gs hb (p.1, w) hwmem) hsw
      · intro q hq
        have hkey := keysSubset_spec h.2 q hq
        rw [hasKeyF_iff_mem] at hkey
        obtain ⟨p, hp, hpq⟩ := List.mem_map.mp hkey
        exact ⟨p, hp, hpq⟩

theorem structEq_canonical_mem : ∀ (fs : Fields) (p : String × Value),
    p ∈ fs.toList → ∀ w, nodupKeysV p.2 = true → nodupKeysV w = true →
    structEq p.2 w = true → canonicalValue p.2 = canonicalValue w
  | .nil, p, hp, _, _, _, _ => by simp [Fields.toList] at hp
  | .cons k v rest, p, hp, w, h1, h2, h3 => by
    rcases List.mem_cons.mp (by simpa [Fields.toList] using hp) with heq | hmem
    · subst heq
      exact structEq_canonical v w h1 h2 h3
    · exact structEq_canonical_mem rest p hmem w h1 h2 h3

end

/-- Structurally equal (name, args) pairs canonicalize to the same QueryKey. -/
theorem queryKey_congr (name : String) (args1 args2 : Fields)
    (h1 : nodupKeysV (.obj args1) = true) (h2 : nodupKeysV (.obj args2) = true)
    (h : structEq (.obj args1) (.obj args2) = true) :
    queryKey name args1 = queryKey name args2 := by
  unfold queryKey
  rw [structEq_canonical (.obj args1) (.obj args2) h1 h2 h]

mutual

/-- Modelled from the spec: syntactic equality of JSON-like values, used by
the engine to detect whether a delivered or optimistically written value
actually changes the cached one (spec section 2: "notifies interested
listeners only when a value actually changes"); the engine's implementation is
not in the excerpt. -/
def valueBeq : Value → Value → Bool
  | .str s, .str t => s = t
  | .num m, .num n => m = n
  | .bool a, .bool b => a = b
  | .null, .null => true
  | .fn, .fn => true
  | .obj fs, .obj gs => fieldsBeq fs gs
  | _, _ => false

/-- Modelled from the spec: syntactic equality of object field lists. -/
def fieldsBeq : Fields → Fields → Bool
  | .nil, .nil => true
  | .cons k v rest, .cons k' v' rest' =>
    (k = k' : Bool) && valueBeq v v' && fieldsBeq rest rest'
  | _, _ => false

end

/-- Equality of optional cached values. -/
def optValueBeq : Option Value → Option Value → Bool
  | none, none => true
  | some a, some b => valueBeq a b
  | _, _ => false

/-- Modelled from the spec: one Watch as observed through the engine (spec
sections 3 and 6; the `Watch` collaborator and the test double `FakeWatch` are
not in the excerpt).  `factoryGen` identifies which watch factory created it,
`name`/`args`/`journalArg` record the arguments of the factory invocation that
created it, `value` is the last delivered value, `journal` the reconnect
journal the transport attached, and `numCallbacks` the number of value-change
callbacks currently subscribed. -/
structure WatchRecord where
  factoryGen : Nat
  name : String
  args : Fields
  journalArg : Option String
  value : Option Value
  journal : Option String
  numCallbacks : Nat

/-- Placeholder watch used for out-of-range list access. -/
def defaultWatch : WatchRecord := ⟨0, "", .nil, none, none, none, 0⟩

/-- Modelled from the spec: a (name, args) query requested for a slot. -/
structure QueryRequest where
  name : String
  args : Fields

/-- Modelled from the spec: the full state of the Queries Observer and its
Subscription Registry (spec sections 3, 4.2 and 4.3; the implementation is not
in the excerpt).  `gen` is the current watch-factory generation (bumped by a
factory swap), `watches` every watch ever created in creation order, `subs`
the live Subscriptions (QueryKey to watch index; exactly one per distinct
key), `slots` the slot-to-QueryKey mapping, `cache` the ResultCache keyed by
QueryKey, `notifyCount` how many listener notifications have been emitted and
`listeners` how many listeners are subscribed. -/
structure ObserverState where
  gen : Nat
  watches : List WatchRecord
  subs : List (String × Nat)
  slots : List (String × String)
  cache : List (String × Value)
  notifyCount : Nat
  listeners : Nat

/-- Modelled from the spec: the freshly constructed observer. -/
def initState : ObserverState := ⟨0, [], [], [], [], 0, 0⟩

/-- Modelled from the spec: `subscribe(listener)` registers one listener
(spec section 4.3). -/
def subscribeListener (s : ObserverState) : ObserverState :=
  { s with listeners := s.listeners + 1 }

/-- Apply a function to the watch at an index. -/
def updateWatchAt : List WatchRecord → Nat → (WatchRecord → WatchRecord) →
    List WatchRecord
  | [], _, _ => []
  | w :: rest, 0, f => f w :: rest
  | w :: rest, i + 1, f => w :: updateWatchAt rest i f

/-- Set `numCallbacks := 0` on every watch whose index is listed in `live`;
`i` is the index of the list head. -/
def clearCallbacks : List WatchRecord → List Nat → Nat → List WatchRecord
  | [], _, _ => []
  | w :: rest, live, i =>
    (if live.contains i then { w with numCallbacks := 0 } else w) ::
      clearCallbacks rest live (i + 1)

/-- Insert or overwrite the cache entry for a key (last write wins). -/
def upsert : List (String × Value) → String → Value → List (String × Value)
  | [], key, v => [(key, v)]
  | (k, w) :: rest, key, v =>
    if k = key then (key, v) :: rest else (k, w) :: upsert rest key v

/-- Modelled from the spec: release one no-longer-desired QueryKey (spec
section 4.2 `reconcile`): unsubscribe its Watch and remove the Subscription
and its ResultCache entry. -/
def releaseKey (s : ObserverState) (key : String) : ObserverState :=
  match s.subs.find? (fun p => p.1 = key) with
  | none => s
  | some p =>
    { s with
      watches := updateWatchAt s.watches p.2 (fun w => { w with numCallbacks := 0 }),
      subs := s.subs.filter (fun q => !(q.1 = key : Bool)),
      cache := s.cache.filter (fun q => !(q.1 = key : Bool)) }

/-- Modelled from the spec: acquire one newly desired QueryKey (spec section
4.2 `reconcile`): if no Subscription exists for the key, create a Watch via
the current factory (recording the generation and the name/args it was invoked
with) and subscribe a value-change callback to it. -/
def acquireKey (s : ObserverState) (nm : String) (args : Fields) : ObserverState :=
  let key := queryKey nm args
  if s.subs.any (fun p => p.1 = key) then s
  else
    { s with
      watches := s.watches ++ [⟨s.gen, nm, args, none, none, none, 1⟩],
      subs := s.subs ++ [(key, s.watches.length)] }

/-- Modelled from the spec: `setQueries(desired)` (spec section 4.3): compute
the desired QueryKeys via the canonicalizer, release keys no longer desired,
acquire newly desired keys (keys desired both before and after are left
untouched), and update the slot-to-key mapping.  Emits no listener
notification of its own (spec section 4.3, self-change suppression rule). -/
def setQueries (s : ObserverState) (desired : List (String × QueryRequest)) :
    ObserverState :=
  let newSlots := desired.map (fun p => (p.1, queryKey p.2.name p.2.args))
  let desiredKeys := newSlots.map Prod.snd
  let toRelease := (s.subs.map Prod.fst).filter (fun k => !desiredKeys.contains k)
  let s1 := toRelease.foldl releaseKey s
  let s2 := desired.foldl (fun st p => acquireKey st p.2.name p.2.args) s1
  { s2 with slots := newSlots }

/-- Modelled from the spec: `getCurrentQueries()` (spec section 4.3): the
synchronous snapshot; a slot whose key has no ResultCache entry yet maps to
`none` (not yet loaded). -/
def getCurrentQueries (s : ObserverState) : List (String × Option Value) :=
  s.slots.map (fun p => (p.1, lookupField s.cache p.2))

/-- Modelled from the spec: the transport delivers a value on watch `i` (spec
sections 4.2 and 5; mirrors the test double's `setValue`): the watch stores
the value; if a callback is subscribed, it writes the ResultCache entry for
the watch's key and notifies listeners exactly when the cached value actually
changed.  A delivery on an unsubscribed watch (e.g. after destroy) is a
no-op for the cache. -/
def setValue (s : ObserverState) (i : Nat) (val : Value) : ObserverState :=
  match s.watches.get? i with
  | none => s
  | some w =>
    let watches := updateWatchAt s.watches i (fun ww => { ww with value := some val })
    if w.numCallbacks = 0 then { s with watches := watches }
    else
      match s.subs.find? (fun p => p.2 = i) with
      | none => { s with watches := watches }
      | some p =>
        if optValueBeq (lookupField s.cache p.1) (some val) then
          { s with watches := watches }
        else
          { s with
            watches := watches,
            cache := upsert s.cache p.1 val,
            notifyCount := s.notifyCount + 1 }

/-- Modelled from the spec: the transport attaches a reconnect journal to
watch `i` (spec section 3; mirrors the test double's `setJournal`). -/
def setJournal (s : ObserverState) (i : Nat) (j : String) : ObserverState :=
  { s with watches := updateWatchAt s.watches i (fun w => { w with journal := some j }) }

/-- The replacement watch created by the new factory during a factory swap:
it receives the old watch's name, args and captured reconnect journal (as the
third factory argument) and gets the value-change callback rewired to it. -/
def mkSwapWatch (gen : Nat) (w : WatchRecord) : WatchRecord :=
  ⟨gen, w.name, w.args, w.journal, none, none, 1⟩

/-- Modelled from the spec: `swapWatchFactory` / `setCreateWatch` (spec
section 4.2): for every currently-live Subscription, capture its Watch's
reconnect journal, unsubscribe the old Watch, create a replacement Watch via
the new factory (next generation) passing the captured journal, and rewire the
value-change callback.  The replacement has no immediate value, so no
notification is emitted (only genuine value differences notify). -/
def setCreateWatch (s : ObserverState) : ObserverState :=
  { s with
    gen := s.gen + 1,
    watches :=
      clearCallbacks s.watches (s.subs.map Prod.snd) 0 ++
        s.subs.map (fun p => mkSwapWatch (s.gen + 1) (s.watches.getD p.2 defaultWatch)),
    subs := s.subs.enum.map (fun q => (q.2.1, s.watches.length + q.1)) }

/-- Modelled from the spec: `destroy()` (spec sections 4.2 and 4.3):
unsubscribe every live Watch, clear the registry, the slot mappings and the
ResultCache; idempotent. -/
def destroy (s : ObserverState) : ObserverState :=
  { s with
    watches := clearCallbacks s.watches (s.subs.map Prod.snd) 0,
    subs := [], slots := [], cache := [] }

/-- Modelled from the spec: the Optimistic Local Store's `setQuery(name, args,
value)` (spec section 4.4): canonicalize (name, args) exactly as the query key
canonicalizer does and write directly into the ResultCache entry for that key
(no Subscription required; a write for a not-yet-subscribed key is held in the
cache and seeds the initial value of a later Subscription).  An optimistic
write that actually changes the cached value notifies listeners (spec
section 2). -/
def setQuery (s : ObserverState) (nm : String) (args : Fields) (val : Value) :
    ObserverState :=
  let key := queryKey nm args
  if optValueBeq (lookupField s.cache key) (some val) then s
  else
    { s with
      cache := upsert s.cache key val,
      notifyCount := s.notifyCount + 1 }

/-- Modelled from the spec: a pending mutation invocation built by the
consumer API (spec sections 4.4 and 6; `createMutation` is not in the
excerpt): the mutation name plus the at-most-one attached optimistic-update
function, represented by the list of `setQuery` writes it performs. -/
structure MutationInvocation where
  name : String
  update : Option (List (String × Fields × Value))

/-- Modelled from the spec: a fresh mutation invocation with no
optimistic update attached. -/
def createMutation (nm : String) : MutationInvocation := ⟨nm, none⟩

/-- Modelled from the spec: `withOptimisticUpdate(fn)` (spec sections 4.4, 6
and 7): attaches exactly one optimistic-update function to a pending mutation
invocation; attaching a second one fails with the `AlreadySpecified` error
naming the mutation. -/
def withOptimisticUpdate (m : MutationInvocation)
    (f : List (String × Fields × Value)) : Except String MutationInvocation :=
  match m.update with
  | some _ =>
    Except.error ("Already specified optimistic update for mutation " ++ m.name)
  | none => Except.ok { m with update := some f }

/-- Modelled from the spec: at mutation-submission time the attached
optimistic-update function is invoked synchronously against the Optimistic
Local Store, performing its `setQuery` writes in order (spec section 4.4). -/
def runOptimisticUpdate (s : ObserverState) (m : MutationInvocation) :
    ObserverState :=
  match m.update with
  | none => s
  | some writes => writes.foldl (fun st w => setQuery st w.1 w.2.1 w.2.2) s

/-- Modelled from the spec: detection of a UI SyntheticEvent passed as a
mutation's sole argument, "detected by the shape of its sole argument
resembling a UI event" (spec section 7): an object carrying the
characteristic event fields. -/
def looksLikeSyntheticEvent (arg : Value) : Bool :=
  match arg with
  | .obj fs =>
    hasKeyF fs "bubbles" && hasKeyF fs "nativeEvent" &&
      hasKeyF fs "preventDefault" && hasKeyF fs "stopPropagation"
  | _ => false

/-- Modelled from the spec: invoking a mutation-invocation object (spec
sections 6 and 7): if its sole argument resembles a UI SyntheticEvent, fail
synchronously with the `MisuseAsEventHandler` diagnostic instead of sending
the mutation; otherwise the mutation (name and arguments) is handed to the
transport. -/
def invokeMutation (m : MutationInvocation) (args : List Value) :
    Except String (String × List Value) :=
  match args with
  | [arg] =>
    if looksLikeSyntheticEvent arg then
      Except.error "Convex function called with SyntheticEvent object."
    else Except.ok (m.name, args)
  | _ => Except.ok (m.name, args)

/-- JSON values as produced by the schema module's `export` methods
(translated from `src/schema/index.ts`, which serializes via
`JSON.stringify`). -/
inductive Json where
  | str (s : String)
  | num (n : Int)
  | bool (b : Bool)
  | null
  | arr (elems : List Json)
  | obj (fields : List (String × Json))

/-- Serialize a `Json` value to a string (the `JSON.stringify` step of
`SchemaDefinition.export` in `src/schema/index.ts`). -/
def jsonToString : Json → String
  | .str s => "\"" ++ escapeString s ++ "\""
  | .num n => toString n
  | .bool b => cond b "true" "false"
  | .null => "null"
  | .arr elems =>
    "[" ++ String.intercalate "," (elems.attach.map fun e => jsonToString e.1) ++ "]"
  | .obj fields =>
    "\x7b" ++
      String.intercalate ","
        (fields.attach.map fun p =>
          "\"" ++ escapeString p.1.1 ++ "\":" ++ jsonToString p.1.2) ++
      "\x7d"
termination_by j => sizeOf j
decreasing_by
  · have h1 := List.sizeOf_lt_of_mem e.2
    simp only [Json.arr.sizeOf_spec]
    omega
  · have h1 := List.sizeOf_lt_of_mem p.2
    have h2 : sizeOf p.1.2 < sizeOf p.1 := by
      obtain ⟨x, y⟩ := p.1
      simp only [Prod.mk.sizeOf_spec]
      omega
    simp only [Json.obj.sizeOf_spec]
    omega

/-- Modelled from the spec and usage: the validator type from the values
module (`values/validator.ts`, not in the excerpt).  The schema module uses a
validator only through its identity (the `instanceof Validator` test) and its
`json` serialization, both kept schematic here. -/
structure Validator where
  json : Json

/-- Modelled from the spec and usage: `v.object` from the values module (not
in the excerpt): the object validator built from a record of field
validators; its JSON shape is schematic, only that it is a deterministic
function of the field validators matters here. -/
def vObject (fields : List (String × Validator)) : Validator :=
  ⟨Json.obj [("type", Json.str "object"),
             ("value", Json.obj (fields.map fun p => (p.1, p.2.json)))]⟩

/-- An entry of `TableDefinition.indexes` (translated from
`src/schema/index.ts`, field `indexes`). -/
structure IndexSchema where
  indexDescriptor : String
  fields : List String

/-- An entry of `TableDefinition.searchIndexes` (translated from
`src/schema/index.ts`, field `searchIndexes`). -/
structure SearchIndexSchema where
  indexDescriptor : String
  searchField : String
  filterFields : List String

/-- The configuration for a search index (translated from
`src/schema/index.ts`, `SearchIndexConfig`); `filterFields` is optional. -/
structure SearchIndexConfig where
  searchField : String
  filterFields : Option (List String)

/-- The definition of a table within a schema (translated from
`src/schema/index.ts`, class `TableDefinition`). -/
structure TableDefinition where
  indexes : List IndexSchema
  searchIndexes : List SearchIndexSchema
  documentType : Validator

/-- The `TableDefinition` constructor: starts with empty index and
search-index lists (translated from `src/schema/index.ts`). -/
def TableDefinition.new (documentType : Validator) : TableDefinition :=
  ⟨[], [], documentType⟩

/-- `TableDefinition.index(name, fields)`: push the new index (translated
from `src/schema/index.ts`). -/
def TableDefinition.index (t : TableDefinition) (name : String)
    (fields : List String) : TableDefinition :=
  { t with indexes := t.indexes ++ [⟨name, fields⟩] }

/-- `TableDefinition.searchIndex(name, indexConfig)`: push the new search
index; `filterFields` defaults to the empty list when omitted
(`indexConfig.filterFields || []` in `src/schema/index.ts`). -/
def TableDefinition.searchIndex (t : TableDefinition) (name : String)
    (indexConfig : SearchIndexConfig) : TableDefinition :=
  { t with
    searchIndexes :=
      t.searchIndexes ++
        [⟨name, indexConfig.searchField, indexConfig.filterFields.getD []⟩] }

/-- The value returned by `TableDefinition.export()` (translated from
`src/schema/index.ts`): the accumulated indexes and search indexes plus the
document type's JSON serialization. -/
structure TableExport where
  indexes : List IndexSchema
  searchIndexes : List SearchIndexSchema
  documentType : Json

/-- `TableDefinition.export()` (translated from `src/schema/index.ts`; named
`exportTable` because `export` is a Lean keyword). -/
def TableDefinition.exportTable (t : TableDefinition) : TableExport :=
  ⟨t.indexes, t.searchIndexes, t.documentType.json⟩

/-- The argument of `defineTable`: either a validator or a record of field
validators (the two overloads in `src/schema/index.ts`; the implementation
distinguishes them with `documentSchema instanceof Validator`). -/
inductive DocumentSchema where
  | validator (val : Validator)
  | record (fields : List (String × Validator))

/-- `defineTable(documentSchema)` (translated from `src/schema/index.ts`):
wrap a validator argument as-is, and a record of field validators via
`v.object`. -/
def defineTable : DocumentSchema → TableDefinition
  | .validator val => TableDefinition.new val
  | .record fields => TableDefinition.new (vObject fields)

/-- Options for `defineSchema` (translated from `src/schema/index.ts`,
`DefineSchemaOptions`); both fields are optional. -/
structure DefineSchemaOptions where
  schemaValidation : Option Bool
  strictTableNameTypes : Option Bool

/-- The definition of a Convex project schema (translated from
`src/schema/index.ts`, class `SchemaDefinition`). -/
structure SchemaDefinition where
  tables : List (String × TableDefinition)
  schemaValidation : Bool

/-- The `SchemaDefinition` constructor (translated from
`src/schema/index.ts`): `schemaValidation` is `true` unless the options
explicitly provide a value (`options?.schemaValidation === undefined ? true :
options.schemaValidation`). -/
def SchemaDefinition.new (tables : List (String × TableDefinition))
    (options : Option DefineSchemaOptions) : SchemaDefinition :=
  ⟨tables,
    match options with
    | none => true
    | some o =>
      match o.schemaValidation with
      | none => true
      | some b => b⟩

/-- Serialization of one index entry inside `SchemaDefinition.export()`. -/
def IndexSchema.toJson (e : IndexSchema) : Json :=
  .obj [("indexDescriptor", .str e.indexDescriptor),
        ("fields", .arr (e.fields.map Json.str))]

/-- Serialization of one search-index entry inside
`SchemaDefinition.export()`. -/
def SearchIndexSchema.toJson (e : SearchIndexSchema) : Json :=
  .obj [("indexDescriptor", .str e.indexDescriptor),
        ("searchField", .str e.searchField),
        ("filterFields", .arr (e.filterFields.map Json.str))]

/-- The per-table object built inside `SchemaDefinition.export()` (translated
from `src/schema/index.ts`): tableName plus the destructured
`definition.export()`. -/
def tableEntryJson (p : String × TableDefinition) : Json :=
  .obj [("tableName", .str p.1),
        ("indexes", .arr (p.2.exportTable.indexes.map IndexSchema.toJson)),
        ("searchIndexes",
          .arr (p.2.exportTable.searchIndexes.map SearchIndexSchema.toJson)),
        ("documentType", p.2.exportTable.documentType)]

/-- `SchemaDefinition.export()` (translated from `src/schema/index.ts`; named
`exportSchema` because `export` is a Lean keyword): `JSON.stringify` of the
object holding the serialized tables and the schemaValidation flag. -/
def SchemaDefinition.exportSchema (s : SchemaDefinition) : String :=
  jsonToString
    (.obj [("tables", .arr (s.tables.map tableEntryJson)),
           ("schemaValidation", .bool s.schemaValidation)])

/-- `defineSchema(schema, options?)` (translated from
`src/schema/index.ts`). -/
def defineSchema (schema : List (String × TableDefinition))
    (options : Option DefineSchemaOptions) : SchemaDefinition :=
  SchemaDefinition.new schema options

/-- Number of active callbacks of the watch at creation index `i`. -/
def watchCb (s : ObserverState) (i : Nat) : Nat :=
  (s.watches.getD i defaultWatch).numCallbacks

theorem setQueries_fresh (ls : Nat) (slot nm : String) (args : Fields) :
    setQueries { initState with listeners := ls } [(slot, ⟨nm, args⟩)] =
      { gen := 0,
        watches := [⟨0, nm, args, none, none, none, 1⟩],
        subs := [(queryKey nm args, 0)],
        slots := [(slot, queryKey nm args)],
        cache := [], notifyCount := 0, listeners := ls } := rfl

theorem setQueries_existing_key (g : Nat) (ws : List WatchRecord)
    (slot nm : String) (args : Fields) (i : Nat)
    (cache : List (String × Value)) (n ls : Nat) :
    setQueries
        { gen := g, watches := ws, subs := [(queryKey nm args, i)],
          slots := [(slot, queryKey nm args)], cache := cache,
          notifyCount := n, listeners := ls }
        [(slot, ⟨nm, args⟩)] =
      { gen := g, watches := ws, subs := [(queryKey nm args, i)],
        slots := [(slot, queryKey nm args)], cache := cache,
        notifyCount := n, listeners := ls } := by
  unfold setQueries
  simp [List.contains, acquireKey]

/-- C1: subscription deduplication.  Structurally equal (name, args) pairs --
same key sets with structurally equal values, regardless of key ordering,
recursively -- canonicalize to the same QueryKey, and repeating `setQueries`
with such an equal query for the slot is a complete no-op on the observer:
in particular no additional Watch is created (the watch count stays 1) and
the existing Watch's callback count stays 1. -/
theorem dedup_structurally_equal_queries (slot nm : String)
    (args1 args2 : Fields)
    (h1 : nodupKeysV (.obj args1) = true) (h2 : nodupKeysV (.obj args2) = true)
    (heq : structEq (.obj args1) (.obj args2) = true) :
    queryKey nm args1 = queryKey nm args2 ∧
    setQueries (setQueries (subscribeListener initState) [(slot, ⟨nm, args1⟩)])
        [(slot, ⟨nm, args2⟩)] =
      setQueries (subscribeListener initState) [(slot, ⟨nm, args1⟩)] ∧
    (setQueries (subscribeListener initState)
        [(slot, ⟨nm, args1⟩)]).watches.length = 1 ∧
    watchCb (setQueries (subscribeListener initState) [(slot, ⟨nm, args1⟩)]) 0 = 1 := by
  have hk := queryKey_congr nm args1 args2 h1 h2 heq
  refine ⟨hk, ?_, rfl, rfl⟩
  rw [show subscribeListener initState = { initState with listeners := 1 } from rfl,
    setQueries_fresh]
  have h3 : setQueries
      { gen := 0,
        watches := [⟨0, nm, args1, none, none, none, 1⟩],
        subs := [(queryKey nm args2, 0)],
        slots := [(slot, queryKey nm args2)],
        cache := [], notifyCount := 0, listeners := 1 }
      [(slot, ⟨nm, args2⟩)] =
      { gen := 0,
        watches := [⟨0, nm, args1, none, none, none, 1⟩],
        subs := [(queryKey nm args2, 0)],
        slots := [(slot, queryKey nm args2)],
        cache := [], notifyCount := 0, listeners := 1 } :=
    setQueries_existing_key 0 [⟨0, nm, args1, none, none, none, 1⟩] slot nm args2 0 [] 0 1
  rw [hk]
  exact h3

/-- The dedup test's arguments in source order:
`{ arg1: "arg1", arg2: 1, arg3: {} }`. -/
def dedupTestArgsA : Fields :=
  .cons "arg1" (.str "arg1") (.cons "arg2" (.num 1) (.cons "arg3" (.obj .nil) .nil))

/-- The same arguments with a different key order. -/
def dedupTestArgsB : Fields :=
  .cons "arg3" (.obj .nil) (.cons "arg1" (.str "arg1") (.cons "arg2" (.num 1) .nil))

/-- Witness for C1: the dedup test's query under two key orders. -/
theorem dedup_structurally_equal_queries_witness :
    (nodupKeysV (.obj dedupTestArgsA) = true ∧
     nodupKeysV (.obj dedupTestArgsB) = true ∧
     structEq (.obj dedupTestArgsA) (.obj dedupTestArgsB) = true) ∧
    (queryKey "myQuery" dedupTestArgsA = queryKey "myQuery" dedupTestArgsB ∧
     setQueries (setQueries (subscribeListener initState)
         [("query", ⟨"myQuery", dedupTestArgsA⟩)])
         [("query", ⟨"myQuery", dedupTestArgsB⟩)] =
       setQueries (subscribeListener initState)
         [("query", ⟨"myQuery", dedupTestArgsA⟩)] ∧
     (setQueries (subscribeListener initState)
         [("query", ⟨"myQuery", dedupTestArgsA⟩)]).watches.length = 1 ∧
     watchCb (setQueries (subscribeListener initState)
         [("query", ⟨"myQuery", dedupTestArgsA⟩)]) 0 = 1) :=
  ⟨⟨by decide, by decide, by decide⟩,
    dedup_structurally_equal_queries "query" "myQuery" dedupTestArgsA
      dedupTestArgsB (by decide) (by decide) (by decide)⟩

theorem setQueries_rebind (g : Nat) (w : WatchRecord) (k1 slot n2 : String)
    (a2 : Fields) (n ls : Nat) (hne : k1 ≠ queryKey n2 a2) :
    setQueries
        { gen := g, watches := [w], subs := [(k1, 0)], slots := [(slot, k1)],
          cache := [], notifyCount := n, listeners := ls }
        [(slot, ⟨n2, a2⟩)] =
      { gen := g,
        watches := [{ w with numCallbacks := 0 }, ⟨g, n2, a2, none, none, none, 1⟩],
        subs := [(queryKey n2 a2, 1)],
        slots := [(slot, queryKey n2 a2)],
        cache := [], notifyCount := n, listeners := ls } := by
  simp [setQueries, releaseKey, acquireKey, updateWatchAt, List.contains, hne]

/-- C2: rebinding a slot to a different name or different args (a different
QueryKey) unsubscribes the first Watch (its callback count drops to 0),
creates and subscribes exactly one new Watch (callback count 1, two watches
created in total), produces zero listener notifications, and leaves exactly
the new key subscribed. -/
theorem rebind_slot_replaces_subscription (slot n1 n2 : String)
    (a1 a2 : Fields) (hne : queryKey n1 a1 ≠ queryKey n2 a2) :
    (setQueries (setQueries (subscribeListener initState) [(slot, ⟨n1, a1⟩)])
        [(slot, ⟨n2, a2⟩)]).watches.length = 2 ∧
    watchCb (setQueries (setQueries (subscribeListener initState)
        [(slot, ⟨n1, a1⟩)]) [(slot, ⟨n2, a2⟩)]) 0 = 0 ∧
    watchCb (setQueries (setQueries (subscribeListener initState)
        [(slot, ⟨n1, a1⟩)]) [(slot, ⟨n2, a2⟩)]) 1 = 1 ∧
    (setQueries (setQueries (subscribeListener initState) [(slot, ⟨n1, a1⟩)])
        [(slot, ⟨n2, a2⟩)]).notifyCount = 0 ∧
    (setQueries (setQueries (subscribeListener initState) [(slot, ⟨n1, a1⟩)])
        [(slot, ⟨n2, a2⟩)]).subs = [(queryKey n2 a2, 1)] := by
  rw [show subscribeListener initState = { initState with listeners := 1 } from rfl,
    setQueries_fresh, setQueries_rebind 0 _ _ slot n2 a2 0 1 hne]
  exact ⟨rfl, rfl, rfl, rfl, rfl⟩

/-- Witness for C2: the test's rebind from query name `myQuery` to
`myQuery2` with empty arguments. -/
theorem rebind_slot_replaces_subscription_witness :
    queryKey "myQuery" .nil ≠ queryKey "myQuery2" .nil ∧
    ((setQueries (setQueries (subscribeListener initState)
        [("query", ⟨"myQuery", .nil⟩)])
        [("query", ⟨"myQuery2", .nil⟩)]).watches.length = 2 ∧
     watchCb (setQueries (setQueries (subscribeListener initState)
        [("query", ⟨"myQuery", .nil⟩)]) [("query", ⟨"myQuery2", .nil⟩)]) 0 = 0 ∧
     watchCb (setQueries (setQueries (subscribeListener initState)
        [("query", ⟨"myQuery", .nil⟩)]) [("query", ⟨"myQuery2", .nil⟩)]) 1 = 1 ∧
     (setQueries (setQueries (subscribeListener initState)
        [("query", ⟨"myQuery", .nil⟩)])
        [("query", ⟨"myQuery2", .nil⟩)]).notifyCount = 0 ∧
     (setQueries (setQueries (subscribeListener initState)
        [("query", ⟨"myQuery", .nil⟩)])
        [("query", ⟨"myQuery2", .nil⟩)]).subs =
       [(queryKey "myQuery2" .nil, 1)]) :=
  ⟨by decide,
    rebind_slot_replaces_subscription "query" "myQuery" "myQuery2" .nil .nil
      (by decide)⟩

/-- C3: self-change suppression.  Adding a new slot via `setQueries` produces
zero listener notifications and an `undefined` (here `none`) snapshot entry
for the slot; when the slot's Watch delivers its first value, the listener
notification count rises to exactly 1 and `getCurrentQueries` reflects the
delivered value. -/
theorem new_slot_silent_until_first_value (slot nm : String) (args : Fields)
    (val : Value) :
    (setQueries (subscribeListener initState)
        [(slot, ⟨nm, args⟩)]).notifyCount = 0 ∧
    getCurrentQueries (setQueries (subscribeListener initState)
        [(slot, ⟨nm, args⟩)]) = [(slot, none)] ∧
    (setValue (setQueries (subscribeListener initState)
        [(slot, ⟨nm, args⟩)]) 0 val).notifyCount = 1 ∧
    getCurrentQueries (setValue (setQueries (subscribeListener initState)
        [(slot, ⟨nm, args⟩)]) 0 val) = [(slot, some val)] := by
  rw [show subscribeListener initState = { initState with listeners := 1 } from rfl,
    setQueries_fresh]
  refine ⟨rfl, rfl, rfl, ?_⟩
  simp [setValue, updateWatchAt, optValueBeq, lookupField, getCurrentQueries,
    upsert]

theorem clearCallbacks_length : ∀ (ws : List WatchRecord) (live : List Nat)
    (i : Nat), (clearCallbacks ws live i).length = ws.length
  | [], _, _ => rfl
  | w :: rest, live, i => by
    simp [clearCallbacks, clearCallbacks_length rest live (i + 1)]

theorem clearCallbacks_getD : ∀ (ws : List WatchRecord) (live : List Nat)
    (i j : Nat),
    (clearCallbacks ws live i).getD j defaultWatch =
      (if live.contains (i + j) then
        { ws.getD j defaultWatch with numCallbacks := 0 }
       else ws.getD j defaultWatch)
  | [], live, i, j => by
    simp [clearCallbacks, defaultWatch]
  | w :: rest, live, i, 0 => by
    simp [clearCallbacks]
  | w :: rest, live, i, j + 1 => by
    have ih := clearCallbacks_getD rest live (i + 1) j
    have harith : i + 1 + j = i + (j + 1) := by omega
    simp only [clearCallbacks, List.getD_cons_succ]
    rw [ih, harith]

/-- C4: swapping the watch factory preserves subscriptions and transfers the
journal: after `setCreateWatch`, every watch that existed before the swap has
zero active callbacks; the new factory has created exactly as many watches as
there were live subscriptions; and the `j`-th replacement watch belongs to
the new factory generation, carries one active callback, was created with the
old watch's name and args, and received the old watch's captured reconnect
journal as its third factory argument (`journalArg`). -/
theorem swap_watch_factory_recreates_subscriptions (s : ObserverState)
    (hidle : ∀ i, i < s.watches.length →
      (∀ p ∈ s.subs, p.2 ≠ i) → watchCb s i = 0) :
    (∀ i, i < s.watches.length → watchCb (setCreateWatch s) i = 0) ∧
    (setCreateWatch s).watches.length = s.watches.length + s.subs.length ∧
    (∀ j, j < s.subs.length →
      (setCreateWatch s).watches.getD (s.watches.length + j) defaultWatch =
        { factoryGen := s.gen + 1,
          name := (s.watches.getD (s.subs.getD j ("", 0)).2 defaultWatch).name,
          args := (s.watches.getD (s.subs.getD j ("", 0)).2 defaultWatch).args,
          journalArg :=
            (s.watches.getD (s.subs.getD j ("", 0)).2 defaultWatch).journal,
          value := none, journal := none, numCallbacks := 1 }) := by
  refine ⟨?_, ?_, ?_⟩
  · intro i hi
    unfold watchCb setCreateWatch
    dsimp only
    rw [List.getD_append _ _ _ _ (by rw [clearCallbacks_length]; exact hi),
      clearCallbacks_getD]
    simp only [Nat.zero_add]
    by_cases hc : (s.subs.map Prod.snd).contains i = true
    · rw [if_pos hc]
    · rw [if_neg hc]
      refine hidle i hi ?_
      intro p hp hpi
      exact hc (List.elem_iff.mpr (List.mem_map.mpr ⟨p, hp, hpi⟩))
  · simp [setCreateWatch, clearCallbacks_length]
  · intro j hj
    unfold setCreateWatch
    dsimp only
    rw [List.getD_append_right _ _ _ _ (by rw [clearCallbacks_length]; omega),
      clearCallbacks_length]
    have hsub : s.watches.length + j - s.watches.length = j := by omega
    rw [hsub]
    rcases hq : s.subs.get? j with _ | q
    · exact absurd (List.get?_eq_none.mp hq) (by omega)
    · have h1 : (s.subs.map (fun p =>
          mkSwapWatch (s.gen + 1) (s.watches.getD p.2 defaultWatch))).get? j =
          some (mkSwapWatch (s.gen + 1) (s.watches.getD q.2 defaultWatch)) := by
        rw [List.get?_map, hq]
        rfl
      have h2 : s.subs.getD j ("", 0) = q := by
        rw [List.getD_eq_getElem?_getD, ← List.get?_eq_getElem?, hq]
        rfl
      have h3 : (s.subs.map (fun p =>
          mkSwapWatch (s.gen + 1) (s.watches.getD p.2 defaultWatch))).getD j
            defaultWatch =
          mkSwapWatch (s.gen + 1) (s.watches.getD q.2 defaultWatch) := by
        rw [List.getD_eq_getElem?_getD, ← List.get?_eq_getElem?, h1]
        rfl
      rw [h3, h2]
      rfl

/-- The state of the factory-swap test: one subscribed query whose watch has
received a reconnect journal from the server. -/
def swapTestState : ObserverState :=
  setJournal (setQueries (subscribeListener initState)
    [("query", ⟨"myQuery", .nil⟩)]) 0 "query journal"

/-- Witness for C4 at the factory-swap test's state. -/
theorem swap_watch_factory_recreates_subscriptions_witness :
    (∀ i, i < swapTestState.watches.length →
      (∀ p ∈ swapTestState.subs, p.2 ≠ i) → watchCb swapTestState i = 0) ∧
    ((∀ i, i < swapTestState.watches.length →
        watchCb (setCreateWatch swapTestState) i = 0) ∧
     (setCreateWatch swapTestState).watches.length =
       swapTestState.watches.length + swapTestState.subs.length ∧
     (∀ j, j < swapTestState.subs.length →
       (setCreateWatch swapTestState).watches.getD
           (swapTestState.watches.length + j) defaultWatch =
         { factoryGen := swapTestState.gen + 1,
           name := (swapTestState.watches.getD
             (swapTestState.subs.getD j ("", 0)).2 defaultWatch).name,
           args := (swapTestState.watches.getD
             (swapTestState.subs.getD j ("", 0)).2 defaultWatch).args,
           journalArg := (swapTestState.watches.getD
             (swapTestState.subs.getD j ("", 0)).2 defaultWatch).journal,
           value := none, journal := none, numCallbacks := 1 })) :=
  ⟨by decide,
    swap_watch_factory_recreates_subscriptions swapTestState (by decide)⟩

theorem clearCallbacks_nil : ∀ (ws : List WatchRecord) (i : Nat),
    clearCallbacks ws [] i = ws
  | [], _ => rfl
  | w :: rest, i => by simp [clearCallbacks, clearCallbacks_nil rest (i + 1)]

/-- C5: destroy is terminal: after `destroy`, every previously created watch
has zero active callbacks (and none were dropped), `getCurrentQueries`
returns the empty mapping, and destroying again changes nothing
(idempotence). -/
theorem destroy_unsubscribes_all (s : ObserverState)
    (hidle : ∀ i, i < s.watches.length →
      (∀ p ∈ s.subs, p.2 ≠ i) → watchCb s i = 0) :
    (∀ i, i < s.watches.length → watchCb (destroy s) i = 0) ∧
    (destroy s).watches.length = s.watches.length ∧
    getCurrentQueries (destroy s) = [] ∧
    destroy (destroy s) = destroy s := by
  refine ⟨?_, by simp [destroy, clearCallbacks_length], rfl, ?_⟩
  · intro i hi
    unfold watchCb destroy
    dsimp only
    rw [clearCallbacks_getD]
    simp only [Nat.zero_add]
    by_cases hc : (s.subs.map Prod.snd).contains i = true
    · rw [if_pos hc]
    · rw [if_neg hc]
      refine hidle i hi ?_
      intro p hp hpi
      exact hc (List.elem_iff.mpr (List.mem_map.mpr ⟨p, hp, hpi⟩))
  · simp [destroy, clearCallbacks_nil]

/-- Witness for C5 at the destroy test's state (one subscribed query). -/
theorem destroy_unsubscribes_all_witness :
    (∀ i, i < (setQueries (subscribeListener initState)
        [("query", ⟨"myQuery", .nil⟩)]).watches.length →
      (∀ p ∈ (setQueries (subscribeListener initState)
        [("query", ⟨"myQuery", .nil⟩)]).subs, p.2 ≠ i) →
      watchCb (setQueries (subscribeListener initState)
        [("query", ⟨"myQuery", .nil⟩)]) i = 0) ∧
    ((∀ i, i < (setQueries (subscribeListener initState)
        [("query", ⟨"myQuery", .nil⟩)]).watches.length →
      watchCb (destroy (setQueries (subscribeListener initState)
        [("query", ⟨"myQuery", .nil⟩)])) i = 0) ∧
     (destroy (setQueries (subscribeListener initState)
        [("query", ⟨"myQuery", .nil⟩)])).watches.length =
       (setQueries (subscribeListener initState)
        [("query", ⟨"myQuery", .nil⟩)]).watches.length ∧
     getCurrentQueries (destroy (setQueries (subscribeListener initState)
        [("query", ⟨"myQuery", .nil⟩)])) = [] ∧
     destroy (destroy (setQueries (subscribeListener initState)
        [("query", ⟨"myQuery", .nil⟩)])) =
       destroy (setQueries (subscribeListener initState)
        [("query", ⟨"myQuery", .nil⟩)])) :=
  ⟨by decide,
    destroy_unsubscribes_all
      (setQueries (subscribeListener initState) [("query", ⟨"myQuery", .nil⟩)])
      (by decide)⟩

/-- C6: optimistic write visibility before subscription: running a mutation
whose optimistic update calls `setQuery(name, args, value)` on the fresh
observer leaves no Subscription for the key (the write is merely held in the
ResultCache), and subscribing to that query afterwards yields the written
value as the slot's initial snapshot value. -/
theorem optimistic_write_visible_before_subscription (slot nm mutName : String)
    (args : Fields) (val : Value) :
    (runOptimisticUpdate (subscribeListener initState)
      ⟨mutName, some [(nm, args, val)]⟩).subs = [] ∧
    getCurrentQueries (setQueries
        (runOptimisticUpdate (subscribeListener initState)
          ⟨mutName, some [(nm, args, val)]⟩) [(slot, ⟨nm, args⟩)]) =
      [(slot, some val)] := by
  constructor
  · rfl
  · simp [runOptimisticUpdate, setQuery, optValueBeq, lookupField, upsert,
      setQueries, acquireKey, getCurrentQueries]

/-- C7: attaching an optimistic update to a fresh mutation invocation
succeeds, and attaching a second one to the same invocation fails with the
`AlreadySpecified` error naming the mutation. -/
theorem optimistic_update_attach_twice_errors (mutName : String)
    (f1 f2 : List (String × Fields × Value)) :
    withOptimisticUpdate (createMutation mutName) f1 =
      Except.ok ⟨mutName, some f1⟩ ∧
    withOptimisticUpdate ⟨mutName, some f1⟩ f2 =
      Except.error
        ("Already specified optimistic update for mutation " ++ mutName) :=
  ⟨rfl, rfl⟩

/-- C8: invoking a mutation-invocation object with a sole argument whose
shape resembles a UI SyntheticEvent fails synchronously with the diagnostic
message instead of sending the mutation. -/
theorem mutation_with_synthetic_event_errors (m : MutationInvocation)
    (arg : Value) (h : looksLikeSyntheticEvent arg = true) :
    invokeMutation m [arg] =
      Except.error "Convex function called with SyntheticEvent object." := by
  simp [invokeMutation, h]

/-- The client test's fake SyntheticEvent object (function-valued fields are
`fn`). -/
def fakeSyntheticEvent : Value :=
  .obj (.cons "bubbles" (.bool false)
    (.cons "cancelable" (.bool true)
      (.cons "defaultPrevented" (.bool false)
        (.cons "isTrusted" (.bool false)
          (.cons "nativeEvent" (.obj .nil)
            (.cons "preventDefault" .fn
              (.cons "isDefaultPrevented" (.bool false)
                (.cons "stopPropagation" .fn
                  (.cons "isPropagationStopped" (.bool false)
                    (.cons "persist" .fn
                      (.cons "timeStamp" (.num 0)
                        (.cons "type" (.str "something") .nil))))))))))))

/-- Witness for C8 at the client test's fake SyntheticEvent. -/
theorem mutation_with_synthetic_event_errors_witness :
    looksLikeSyntheticEvent fakeSyntheticEvent = true ∧
    invokeMutation (createMutation "myMutation") [fakeSyntheticEvent] =
      Except.error "Convex function called with SyntheticEvent object." :=
  ⟨by decide,
    mutation_with_synthetic_event_errors (createMutation "myMutation")
      fakeSyntheticEvent (by decide)⟩

/-- C9: `defineTable` input normalization: a validator argument becomes the
document type unchanged; a record of field validators becomes `v.object` of
that record; in both cases the new table definition starts with empty index
and search-index lists. -/
theorem defineTable_normalizes (ds : DocumentSchema) :
    (defineTable ds).indexes = [] ∧ (defineTable ds).searchIndexes = [] ∧
    (defineTable ds).documentType =
      (match ds with
       | .validator val => val
       | .record fields => vObject fields) := by
  cases ds <;> exact ⟨rfl, rfl, rfl⟩

/-- C10: `defineSchema` with options omitted, or with `schemaValidation`
left undefined, produces a schema whose `schemaValidation` is `true`; its
export serializes exactly the given tables (each as tableName, accumulated
indexes, accumulated search indexes and document type) together with that
flag; and a search index declared without `filterFields` gets the empty
filter list. -/
theorem defineSchema_validation_default_and_export
    (tbls : List (String × TableDefinition))
    (opts : Option DefineSchemaOptions)
    (h : opts = none ∨ ∃ o, opts = some o ∧ o.schemaValidation = none) :
    (defineSchema tbls opts).schemaValidation = true ∧
    SchemaDefinition.exportSchema (defineSchema tbls opts) =
      jsonToString
        (.obj [("tables", .arr (tbls.map tableEntryJson)),
               ("schemaValidation", .bool true)]) ∧
    (∀ (t : TableDefinition) (nm sf : String),
      (t.searchIndex nm ⟨sf, none⟩).searchIndexes =
        t.searchIndexes ++ [⟨nm, sf, []⟩]) := by
  have hval : (defineSchema tbls opts).schemaValidation = true := by
    rcases h with rfl | ⟨o, rfl, ho⟩
    · rfl
    · simp [defineSchema, SchemaDefinition.new, ho]
  refine ⟨hval, ?_, fun t nm sf => rfl⟩
  unfold SchemaDefinition.exportSchema
  rw [show (defineSchema tbls opts).tables = tbls from rfl, hval]

/-- A sample table: a document schema given as a record, one index, and one
search index declared without filter fields. -/
def sampleTable : TableDefinition :=
  TableDefinition.searchIndex
    (TableDefinition.index
      (defineTable (.record [("body", ⟨Json.str "string"⟩)])) "by_body" ["body"])
    "search_body" ⟨"body", none⟩

/-- Witness for C10 at a one-table schema with omitted options. -/
theorem defineSchema_validation_default_and_export_witness :
    ((none : Option DefineSchemaOptions) = none ∨
      ∃ o, (none : Option DefineSchemaOptions) = some o ∧
        o.schemaValidation = none) ∧
    ((defineSchema [("messages", sampleTable)] none).schemaValidation = true ∧
     SchemaDefinition.exportSchema (defineSchema [("messages", sampleTable)] none) =
       jsonToString
         (.obj [("tables", .arr ([("messages", sampleTable)].map tableEntryJson)),
                ("schemaValidation", .bool true)]) ∧
     (∀ (t : TableDefinition) (nm sf : String),
       (t.searchIndex nm ⟨sf, none⟩).searchIndexes =
         t.searchIndexes ++ [⟨nm, sf, []⟩])) :=
  ⟨Or.inl rfl,
    defineSchema_validation_default_and_export [("messages", sampleTable)] none
      (Or.inl rfl)⟩
